import Mathlib

/-! Health probe of `guoyk93/ufx` (`probe.go`)

A shallow embedding of the probe: the registry of named checks, the
consecutive-failure counter, `CheckLiveness` and `CheckReadiness`.

Modelling choices

* A Go `error` is an `Option String`: `none` is the nil error, `some msg` is a
  non-nil error whose `Error()` text is `msg`.
* A check is an effectful Go closure.  Its effects and the environment it
  observes are an explicit world `W` that is threaded through the calls, so the
  same check may succeed in one evaluation and fail in the next.
* `int64` values are `Int`; `atomic.AddInt64` wraps modulo `2^64` into the
  signed range, as the Go addition does.
* Calls are sequential: the embedding has no interleaving of goroutines.
* Both methods have the pointer receiver `m *probe`.  Each is embedded as a
  call on the state that returns, beside its Go results, the receiver and the
  world it leaves (`CheckReadiness`, `CheckLivenessCall`); `CheckLiveness` is
  the value of the liveness query alone.
* The embedded `*ProbeParams` pointer is non-nil, as the dependency injection
  supplies it; a check returns (it neither panics nor blocks forever).
-/

namespace ufx

/-! ## Data model -/

/-- Modelled from the spec: the generic `Named[T]` declaration is not part of
`probe.go`; it is the pair of the two fields `probe.go` reads and writes,
`Name` and `Value` (a registry entry is a name and an evaluate function). -/
structure Named (α : Type) where
  Name : String
  Value : α

/-- The Go `error` interface as far as the probe uses it: nil, or a value with
an `Error()` message. -/
abbrev GoError := Option String

/-- The type `ProbeParams` of `probe.go`. -/
structure ProbeParams where
  ReadinessCascade : Int

/-- The type `CheckerFunc func(ctx context.Context) error`, with the world the
closure reads and writes made explicit. -/
abbrev CheckerFunc (W Ctx : Type) := Ctx → W → GoError × W

/-- The type `probe` of `probe.go`: the embedded `*ProbeParams`, the checkers
and the `failed` counter. -/
structure probe (W Ctx : Type) extends ProbeParams where
  checkers : List (Named (CheckerFunc W Ctx))
  failed : Int

/-- The type `ProbeOptions` of `probe.go` (the `fx.In` marker carries no data). -/
structure ProbeOptions (W Ctx : Type) extends ProbeParams where
  Checkers : List (Named (CheckerFunc W Ctx))

/-! ## Library functions used by `probe.go` -/

/-- The least and the greatest `int64`, as bounds: `-2^63 ≤ x < 2^63`. -/
def int64Bound : Int := 9223372036854775808

/-- Two's-complement wrap of an integer into the `int64` range. -/
def wrapInt64 (x : Int) : Int := (x + int64Bound) % (2 * int64Bound) - int64Bound

/-- The call `atomic.StoreInt64(addr, val)`: the new content of `addr`. -/
def atomicStoreInt64 (_addr val : Int) : Int := val

/-- The call `atomic.AddInt64(addr, delta)`: the new content of `addr`. -/
def atomicAddInt64 (addr delta : Int) : Int := wrapInt64 (addr + delta)

/-- The function `strings.Join(elems, sep)`. -/
def stringsJoin : List String → String → String
  | [], _ => ""
  | [x], _ => x
  | x :: y :: rest, sep => x ++ sep ++ stringsJoin (y :: rest) sep

/-! ## The probe -/

/-- The function `NewProbe`: `failed` is left at its zero value. -/
def NewProbe {W Ctx : Type} (opts : ProbeOptions W Ctx) : probe W Ctx :=
  { toProbeParams := opts.toProbeParams, checkers := opts.Checkers, failed := 0 }

/-- The method `probe.CheckLiveness`. -/
def probe.CheckLiveness {W Ctx : Type} (m : probe W Ctx) : Bool :=
  if m.ReadinessCascade > 0 then
    decide (m.failed < m.ReadinessCascade)
  else
    true

/-- What one `CheckLiveness` call yields: the return value, the receiver after
the call and the world after the call. -/
structure LivenessOutcome (W Ctx : Type) where
  alive : Bool
  probe : probe W Ctx
  world : W

/-- The method `probe.CheckLiveness` as a call on the state: each `return` of
the body yields its value together with the receiver and the world as the
body leaves them.  The body assigns to no field of `m` and calls no checker. -/
def probe.CheckLivenessCall {W Ctx : Type} (m : probe W Ctx) (w : W) : LivenessOutcome W Ctx :=
  if m.ReadinessCascade > 0 then
    { alive := decide (m.failed < m.ReadinessCascade), probe := m, world := w }
  else
    { alive := true, probe := m, world := w }

/-- The `for _, checker := range m.checkers` loop of `CheckReadiness`, run on
the remaining checkers with the current `results`, `ready` and world. -/
def checkLoop {W Ctx : Type} (ctx : Ctx) :
    List (Named (CheckerFunc W Ctx)) → List String → Bool → W → List String × Bool × W
  | [], results, ready, w => (results, ready, w)
  | checker :: rest, results, ready, w =>
    let name := checker.Name
    let r := checker.Value ctx w
    match r.1 with
    | none => checkLoop ctx rest (results ++ [name ++ ": OK"]) ready r.2
    | some e => checkLoop ctx rest (results ++ [name ++ ": " ++ e]) false r.2

/-- What one `CheckReadiness` call yields: the two return values, the receiver
after the call and the world after the call. -/
structure ReadinessOutcome (W Ctx : Type) where
  result : String
  ready : Bool
  probe : probe W Ctx
  world : W

/-- The method `probe.CheckReadiness`. -/
def probe.CheckReadiness {W Ctx : Type} (m : probe W Ctx) (ctx : Ctx) (w : W) :
    ReadinessOutcome W Ctx :=
  let l := checkLoop ctx m.checkers [] true w
  let result := stringsJoin l.1 "\n"
  let ready := l.2.1
  let failed := if ready then atomicStoreInt64 m.failed 0 else atomicAddInt64 m.failed 1
  { result := result, ready := ready, probe := { m with failed := failed }, world := l.2.2 }

/-! ## Observations of one evaluation

These follow the wording of the specification; the theorems below relate them
to `checkLoop` and `CheckReadiness`. -/

/-- The errors the checks return during one evaluation started in world `w`:
the checks run in registry order, each in the world its predecessor left. -/
def outcomes {W Ctx : Type} (ctx : Ctx) : List (Named (CheckerFunc W Ctx)) → W → List GoError
  | [], _ => []
  | c :: cs, w => (c.Value ctx w).1 :: outcomes ctx cs (c.Value ctx w).2

/-- The world after every check of the list has run once, in order, with `ctx`. -/
def worldAfter {W Ctx : Type} (ctx : Ctx) (cs : List (Named (CheckerFunc W Ctx))) (w : W) : W :=
  cs.foldl (fun v c => (c.Value ctx v).2) w

/-- The report line of a check: `<name>: OK` on success and
`<name>: <failure message>` on failure. -/
def reportLine (name : String) : GoError → String
  | none => name ++ ": OK"
  | some msg => name ++ ": " ++ msg

/-- The report lines of one evaluation, one per check, in registry order. -/
def reportLines {W Ctx : Type} (ctx : Ctx) (cs : List (Named (CheckerFunc W Ctx))) (w : W) :
    List String :=
  List.zipWith reportLine (cs.map Named.Name) (outcomes ctx cs w)

/-- A check that fails in every world and for every context. -/
def alwaysFails {W Ctx : Type} (c : Named (CheckerFunc W Ctx)) : Prop :=
  ∀ (ctx : Ctx) (w : W), (c.Value ctx w).1 ≠ none

/-! ## Sequences of calls -/

/-- One call of the `Probe` interface. -/
inductive Call (Ctx : Type) where
  | readiness (ctx : Ctx)
  | liveness

/-- What a call of the `Probe` interface returns. -/
inductive Reply where
  | readiness (report : String) (ready : Bool)
  | liveness (alive : Bool)
  deriving DecidableEq

/-- The replies of a sequence of calls, with the probe and the world it leaves. -/
structure Run (W Ctx : Type) where
  replies : List Reply
  probe : probe W Ctx
  world : W

/-- Runs a sequence of calls, one after the other, on a probe. -/
def runCalls {W Ctx : Type} (m : probe W Ctx) (w : W) : List (Call Ctx) → Run W Ctx
  | [] => { replies := [], probe := m, world := w }
  | Call.liveness :: rest =>
    let o := m.CheckLivenessCall w
    let r := runCalls o.probe o.world rest
    { r with replies := Reply.liveness o.alive :: r.replies }
  | Call.readiness ctx :: rest =>
    let o := m.CheckReadiness ctx w
    let r := runCalls o.probe o.world rest
    { r with replies := Reply.readiness o.result o.ready :: r.replies }

/-- The values returned by the `CheckLiveness` calls of a run, in call order. -/
def livenessReplies : List Reply → List Bool
  | [] => []
  | Reply.liveness alive :: rest => alive :: livenessReplies rest
  | Reply.readiness _ _ :: rest => livenessReplies rest

/-- The number of `CheckReadiness` calls in a sequence of calls. -/
def readinessCount {Ctx : Type} : List (Call Ctx) → Nat
  | [] => 0
  | Call.readiness _ :: rest => readinessCount rest + 1
  | Call.liveness :: rest => readinessCount rest

/-! ## Instrumented checks -/

/-- The check `c` with a recorder: each invocation appends the registry
position `i` and the context it was given to a log kept beside the world. -/
def traced {W Ctx : Type} (i : Nat) (c : Named (CheckerFunc W Ctx)) :
    Named (CheckerFunc (W × List (Nat × Ctx)) Ctx) :=
  { Name := c.Name
    Value := fun ctx v => ((c.Value ctx v.1).1, ((c.Value ctx v.1).2, v.2 ++ [(i, ctx)])) }

/-- Instruments every check of a registry, numbering positions from `i`. -/
def tracedFrom {W Ctx : Type} (i : Nat) :
    List (Named (CheckerFunc W Ctx)) → List (Named (CheckerFunc (W × List (Nat × Ctx)) Ctx))
  | [] => []
  | c :: cs => traced i c :: tracedFrom (i + 1) cs

/-- The probe `m` with every check instrumented. -/
def probe.traced {W Ctx : Type} (m : probe W Ctx) : probe (W × List (Nat × Ctx)) Ctx :=
  { toProbeParams := m.toProbeParams, checkers := tracedFrom 0 m.checkers, failed := m.failed }

/-! ## Splitting a report into lines -/

/-- Splits a character sequence at every occurrence of `sep`; the pieces do
not contain `sep`, and a sequence without `sep` is a single piece. -/
def splitChars (sep : Char) : List Char → List (List Char)
  | [] => [[]]
  | c :: cs =>
    if c = sep then [] :: splitChars sep cs
    else
      match splitChars sep cs with
      | [] => [[c]]
      | piece :: pieces => (c :: piece) :: pieces

/-- The function `strings.Split(s, "\n")`. -/
def splitLines (s : String) : List String :=
  (splitChars (Char.ofNat 10) s.data).map String.mk

/-! ## Concrete checks and registries -/

/-- A check named `A` that always succeeds. -/
def checkA : Named (CheckerFunc Unit Unit) :=
  { Name := "A", Value := fun _ w => (none, w) }

/-- A check named `B` that always fails with the message `boom`. -/
def checkB : Named (CheckerFunc Unit Unit) :=
  { Name := "B", Value := fun _ w => (some "boom", w) }

/-- A check named `db` over a world that counts evaluations: it fails with
`down` during the first two evaluations and succeeds afterwards. -/
def checkDb : Named (CheckerFunc Nat Unit) :=
  { Name := "db", Value := fun _ n => (if n < 2 then some "down" else none, n + 1) }

/-- A check whose failure message spans two lines. -/
def checkMultiline : Named (CheckerFunc Unit Unit) :=
  { Name := "M", Value := fun _ w => (some "first\nsecond", w) }

/-- The registry `A`, `B` with the default threshold 5. -/
def optionsAB : ProbeOptions Unit Unit :=
  { ReadinessCascade := 5, Checkers := [checkA, checkB] }

/-- The registry `A`, `M` with the default threshold 5. -/
def optionsMultiline : ProbeOptions Unit Unit :=
  { ReadinessCascade := 5, Checkers := [checkA, checkMultiline] }

/-- The registry with the single check `A` and the default threshold 5. -/
def optionsA : ProbeOptions Unit Unit :=
  { ReadinessCascade := 5, Checkers := [checkA] }

/-- The registry with the single check `B` and the default threshold 5. -/
def optionsB : ProbeOptions Unit Unit :=
  { ReadinessCascade := 5, Checkers := [checkB] }

/-- A probe with the registry `A`, `B` and threshold 2 whose counter stands at
7: its liveness is false. -/
def probeDegradedAB : probe Unit Unit :=
  { ReadinessCascade := 2, checkers := [checkA, checkB], failed := 7 }

/-- A probe with the empty registry and threshold 5 whose counter stands at 9:
its liveness is false. -/
def probeDegradedEmpty : probe Unit Unit :=
  { ReadinessCascade := 5, checkers := [], failed := 9 }

/-- The empty registry with the default threshold 5. -/
def optionsEmpty : ProbeOptions Unit Unit :=
  { ReadinessCascade := 5, Checkers := [] }

end ufx

/-! ## The evaluation loop in closed form -/

namespace ufx

variable {W Ctx : Type}

theorem reportLines_nil (ctx : Ctx) (w : W) :
    reportLines ctx ([] : List (Named (CheckerFunc W Ctx))) w = [] := rfl

theorem reportLines_cons (ctx : Ctx) (c : Named (CheckerFunc W Ctx))
    (cs : List (Named (CheckerFunc W Ctx))) (w : W) :
    reportLines ctx (c :: cs) w =
      reportLine c.Name (c.Value ctx w).1 :: reportLines ctx cs (c.Value ctx w).2 := rfl

theorem outcomes_length (ctx : Ctx) (cs : List (Named (CheckerFunc W Ctx))) (w : W) :
    (outcomes ctx cs w).length = cs.length := by
  induction cs generalizing w with
  | nil => rfl
  | cons c cs ih => simp [outcomes, ih]

theorem reportLines_length (ctx : Ctx) (cs : List (Named (CheckerFunc W Ctx))) (w : W) :
    (reportLines ctx cs w).length = cs.length := by
  simp [reportLines, outcomes_length]

/-- The loop appends the report lines to `results`, clears `ready` as soon as
one outcome is a failure, and leaves the world in which every check has run. -/
theorem checkLoop_eq (ctx : Ctx) (cs : List (Named (CheckerFunc W Ctx)))
    (results : List String) (ready : Bool) (w : W) :
    checkLoop ctx cs results ready w =
      (results ++ reportLines ctx cs w,
        ready && (outcomes ctx cs w).all Option.isNone,
        worldAfter ctx cs w) := by
  induction cs generalizing results ready w with
  | nil => simp [checkLoop, reportLines, outcomes, worldAfter]
  | cons c cs ih =>
    rw [reportLines_cons]
    simp only [checkLoop, outcomes, worldAfter, List.foldl_cons, List.all_cons]
    cases h : (c.Value ctx w).1 with
    | none =>
      simp only [ih, reportLine, Option.isNone_none, Bool.true_and, List.append_assoc,
        List.singleton_append, worldAfter]
    | some e =>
      simp only [ih, reportLine, Option.isNone_some, Bool.false_and, Bool.and_false,
        List.append_assoc, List.singleton_append, worldAfter]

theorem CheckReadiness_result (m : probe W Ctx) (ctx : Ctx) (w : W) :
    (m.CheckReadiness ctx w).result = stringsJoin (reportLines ctx m.checkers w) "\n" := by
  simp [probe.CheckReadiness, checkLoop_eq]

theorem CheckReadiness_ready (m : probe W Ctx) (ctx : Ctx) (w : W) :
    (m.CheckReadiness ctx w).ready = (outcomes ctx m.checkers w).all Option.isNone := by
  simp [probe.CheckReadiness, checkLoop_eq]

theorem CheckReadiness_world (m : probe W Ctx) (ctx : Ctx) (w : W) :
    (m.CheckReadiness ctx w).world = worldAfter ctx m.checkers w := by
  simp [probe.CheckReadiness, checkLoop_eq]

theorem CheckReadiness_failed (m : probe W Ctx) (ctx : Ctx) (w : W) :
    (m.CheckReadiness ctx w).probe.failed =
      if (outcomes ctx m.checkers w).all Option.isNone then 0 else wrapInt64 (m.failed + 1) := by
  simp [probe.CheckReadiness, checkLoop_eq, atomicStoreInt64, atomicAddInt64]

theorem CheckReadiness_checkers (m : probe W Ctx) (ctx : Ctx) (w : W) :
    (m.CheckReadiness ctx w).probe.checkers = m.checkers := rfl

theorem CheckReadiness_params (m : probe W Ctx) (ctx : Ctx) (w : W) :
    (m.CheckReadiness ctx w).probe.toProbeParams = m.toProbeParams := rfl

theorem CheckLivenessCall_alive (m : probe W Ctx) (w : W) :
    (m.CheckLivenessCall w).alive = m.CheckLiveness := by
  unfold probe.CheckLivenessCall probe.CheckLiveness
  split <;> rfl

theorem CheckLivenessCall_probe (m : probe W Ctx) (w : W) :
    (m.CheckLivenessCall w).probe = m := by
  unfold probe.CheckLivenessCall
  split <;> rfl

theorem CheckLivenessCall_world (m : probe W Ctx) (w : W) :
    (m.CheckLivenessCall w).world = w := by
  unfold probe.CheckLivenessCall
  split <;> rfl

/-- A liveness call at the head of a sequence: its reply is the value of the
query, and the rest runs on the probe and the world the call leaves. -/
theorem runCalls_liveness_cons (m : probe W Ctx) (w : W) (rest : List (Call Ctx)) :
    runCalls m w (Call.liveness :: rest) =
      { replies := Reply.liveness m.CheckLiveness :: (runCalls m w rest).replies
        probe := (runCalls m w rest).probe
        world := (runCalls m w rest).world } := by
  simp only [runCalls, CheckLivenessCall_alive, CheckLivenessCall_probe, CheckLivenessCall_world]

theorem all_isNone_iff (os : List GoError) :
    os.all Option.isNone = true ↔ ∀ o ∈ os, o = none := by
  simp [List.all_eq_true]

theorem all_isNone_eq_false_iff (os : List GoError) :
    os.all Option.isNone = false ↔ ∃ o ∈ os, o ≠ none := by
  rw [← Bool.not_eq_true, all_isNone_iff]
  push_neg
  rfl

/-! ## Readiness: report and verdict -/

/-- C1: the report of `CheckReadiness` is the report lines of the checks, in
registry order, joined with one newline between consecutive lines, where the
line of a check is `<name>: OK` on success and `<name>: <message>` on failure;
for `A` (succeeds) and `B` (fails with `boom`) the report is `A: OK\nB: boom`
and `ready` is false. -/
theorem C1_report_is_joined_lines :
    (∀ (W Ctx : Type) (m : probe W Ctx) (ctx : Ctx) (w : W),
      (m.CheckReadiness ctx w).result
          = stringsJoin
              (List.zipWith reportLine (m.checkers.map Named.Name) (outcomes ctx m.checkers w))
              "\n"
        ∧ (List.zipWith reportLine (m.checkers.map Named.Name)
              (outcomes ctx m.checkers w)).length = m.checkers.length)
      ∧ (∀ name : String, reportLine name none = name ++ ": OK")
      ∧ (∀ name msg : String, reportLine name (some msg) = name ++ ": " ++ msg)
      ∧ ((NewProbe { ReadinessCascade := 5, Checkers := [checkA, checkB] }).CheckReadiness
            () ()).result = "A: OK\nB: boom"
      ∧ ((NewProbe { ReadinessCascade := 5, Checkers := [checkA, checkB] }).CheckReadiness
            () ()).ready = false := by
  refine ⟨fun W Ctx m ctx w => ⟨CheckReadiness_result m ctx w, ?_⟩,
    fun _ => rfl, fun _ _ => rfl, by decide, by decide⟩
  exact reportLines_length ctx m.checkers w

/-- C2: `ready` is true exactly when every registered check returned no
failure in this evaluation; one failing check anywhere makes it false.  The
call always returns its pair of values: there is no other channel for a
failure. -/
theorem C2_ready_iff_all_checks_succeed (m : probe W Ctx) (ctx : Ctx) (w : W) :
    ((m.CheckReadiness ctx w).ready = true ↔ ∀ o ∈ outcomes ctx m.checkers w, o = none)
      ∧ ((m.CheckReadiness ctx w).ready = false ↔ ∃ o ∈ outcomes ctx m.checkers w, o ≠ none) := by
  rw [CheckReadiness_ready]
  exact ⟨all_isNone_iff _, all_isNone_eq_false_iff _⟩

/-! ## Liveness -/

/-- C3: `CheckLiveness` returns true when the threshold is `<= 0`, and
otherwise the truth value of `failed < threshold`, for every threshold and
every counter value. -/
theorem C3_CheckLiveness_spec (m : probe W Ctx) :
    m.CheckLiveness =
      if m.ReadinessCascade ≤ 0 then true else decide (m.failed < m.ReadinessCascade) := by
  by_cases h : m.ReadinessCascade ≤ 0
  · simp [probe.CheckLiveness, h, not_lt.mpr h]
  · simp [probe.CheckLiveness, h, not_le.mp h]

/-! ## The counter -/

theorem wrapInt64_of_range (x : Int) (hlo : -int64Bound ≤ x) (hhi : x < int64Bound) :
    wrapInt64 x = x := by
  unfold wrapInt64
  rw [Int.emod_eq_of_lt (by omega) (by omega)]
  omega

theorem wrapInt64_wrap_add (x y : Int) : wrapInt64 (wrapInt64 x + y) = wrapInt64 (x + y) := by
  unfold wrapInt64
  have h : (x + int64Bound) % (2 * int64Bound) - int64Bound + y + int64Bound
      = (x + int64Bound) % (2 * int64Bound) + y := by ring
  rw [h, Int.emod_add_emod]
  congr 2
  ring

theorem wrapInt64_idem (x : Int) : wrapInt64 (wrapInt64 x) = wrapInt64 x := by
  simpa using wrapInt64_wrap_add x 0

theorem wrapInt64_zero : wrapInt64 0 = 0 := by decide

theorem outcomes_of_alwaysFails (ctx : Ctx) (cs : List (Named (CheckerFunc W Ctx))) (w : W)
    (h : ∃ c ∈ cs, alwaysFails c) : (outcomes ctx cs w).all Option.isNone = false := by
  induction cs generalizing w with
  | nil => simp at h
  | cons c cs ih =>
    simp only [outcomes, List.all_cons, Bool.and_eq_false_iff]
    rcases h with ⟨d, hd, hf⟩
    rcases List.mem_cons.mp hd with rfl | hd
    · left
      cases hv : (d.Value ctx w).1 with
      | none => exact absurd hv (hf ctx w)
      | some e => rfl
    · right
      exact ih _ ⟨d, hd, hf⟩

theorem runCalls_params (m : probe W Ctx) (w : W) (calls : List (Call Ctx)) :
    (runCalls m w calls).probe.toProbeParams = m.toProbeParams := by
  induction calls generalizing m w with
  | nil => rfl
  | cons c rest ih =>
    cases c with
    | liveness => simpa [runCalls_liveness_cons] using ih m w
    | readiness ctx =>
      simp only [runCalls]
      rw [ih, CheckReadiness_params]

theorem runCalls_checkers (m : probe W Ctx) (w : W) (calls : List (Call Ctx)) :
    (runCalls m w calls).probe.checkers = m.checkers := by
  induction calls generalizing m w with
  | nil => rfl
  | cons c rest ih =>
    cases c with
    | liveness => simpa [runCalls_liveness_cons] using ih m w
    | readiness ctx =>
      simp only [runCalls]
      rw [ih, CheckReadiness_checkers]

/-- After `k` evaluations of a registry with an always-failing check, the
counter is the wrapped sum of its prior value and `k`. -/
theorem failed_after_failing_rounds (m : probe W Ctx) (w : W) (ctxs : List Ctx)
    (hfail : ∃ c ∈ m.checkers, alwaysFails c) (hm : wrapInt64 m.failed = m.failed) :
    (runCalls m w (ctxs.map Call.readiness)).probe.failed
      = wrapInt64 (m.failed + (ctxs.length : Int)) := by
  induction ctxs generalizing m w with
  | nil => simpa [runCalls] using hm.symm
  | cons ctx rest ih =>
    simp only [List.map_cons, runCalls, List.length_cons]
    have hf : (m.CheckReadiness ctx w).probe.failed = wrapInt64 (m.failed + 1) := by
      rw [CheckReadiness_failed, outcomes_of_alwaysFails ctx m.checkers w hfail]
      simp
    rw [ih _ _ (by rw [CheckReadiness_checkers]; exact hfail) (by rw [hf, wrapInt64_idem])]
    rw [hf, wrapInt64_wrap_add]
    congr 1
    push_cast
    ring

theorem CheckLiveness_eq (m : probe W Ctx) :
    m.CheckLiveness = (decide (m.ReadinessCascade ≤ 0) || decide (m.failed < m.ReadinessCascade)) := by
  by_cases h : m.ReadinessCascade ≤ 0
  · simp [probe.CheckLiveness, h, not_lt.mpr h]
  · simp [probe.CheckLiveness, h, not_le.mp h]

/-- C4 (amended): for a threshold `N > 0` and a registry with an always-failing
check, after `k < 2^63` consecutive `CheckReadiness` calls on a fresh probe the
counter is `k` and `CheckLiveness` is true exactly when `k < N`. -/
theorem C4_liveness_after_failing_rounds (opts : ProbeOptions W Ctx) (w : W) (ctxs : List Ctx)
    (hN : 0 < opts.ReadinessCascade)
    (hfail : ∃ c ∈ opts.Checkers, alwaysFails c)
    (hk : (ctxs.length : Int) < int64Bound) :
    (runCalls (NewProbe opts) w (ctxs.map Call.readiness)).probe.failed = (ctxs.length : Int)
      ∧ (runCalls (NewProbe opts) w (ctxs.map Call.readiness)).probe.CheckLiveness
          = decide ((ctxs.length : Int) < opts.ReadinessCascade) := by
  have hf : (runCalls (NewProbe opts) w (ctxs.map Call.readiness)).probe.failed
      = (ctxs.length : Int) := by
    rw [failed_after_failing_rounds (NewProbe opts) w ctxs hfail wrapInt64_zero]
    show wrapInt64 (0 + (ctxs.length : Int)) = _
    rw [Int.zero_add]
    exact wrapInt64_of_range _ (by unfold int64Bound; omega) hk
  refine ⟨hf, ?_⟩
  rw [CheckLiveness_eq, hf, runCalls_params]
  show (decide (opts.ReadinessCascade ≤ 0) || decide ((ctxs.length : Int) < opts.ReadinessCascade))
    = _
  simp [not_le.mpr hN]

/-- Witness of C4 with threshold 3 and the single check `B`: liveness is true
after the first and the second failing call and false after the third. -/
theorem C4_liveness_after_failing_rounds_witness :
    (0 : Int) < 3 ∧ (∃ c ∈ [checkB], alwaysFails c)
      ∧ (runCalls (NewProbe { ReadinessCascade := 3, Checkers := [checkB] }) ()
          ([()].map Call.readiness)).probe.CheckLiveness = true
      ∧ (runCalls (NewProbe { ReadinessCascade := 3, Checkers := [checkB] }) ()
          ([(), ()].map Call.readiness)).probe.CheckLiveness = true
      ∧ (runCalls (NewProbe { ReadinessCascade := 3, Checkers := [checkB] }) ()
          ([(), (), ()].map Call.readiness)).probe.CheckLiveness = false := by
  have hB : ∃ c ∈ [checkB], alwaysFails c :=
    ⟨checkB, List.mem_singleton.mpr rfl, fun _ _ => by simp [checkB]⟩
  refine ⟨by decide, hB, ?_, ?_, ?_⟩
  · exact (C4_liveness_after_failing_rounds { ReadinessCascade := 3, Checkers := [checkB] } ()
      [()] (by decide) hB (by decide)).2.trans (by decide)
  · exact (C4_liveness_after_failing_rounds { ReadinessCascade := 3, Checkers := [checkB] } ()
      [(), ()] (by decide) hB (by decide)).2.trans (by decide)
  · exact (C4_liveness_after_failing_rounds { ReadinessCascade := 3, Checkers := [checkB] } ()
      [(), (), ()] (by decide) hB (by decide)).2.trans (by decide)

/-- C4 fails as stated: with threshold 1 and the always-failing check `B`,
after `k = 2^63` consecutive failing calls on a fresh probe (so `k >= N`) the
`int64` counter has wrapped to `-2^63` and `CheckLiveness` returns true. -/
theorem C4_counterexample_wraparound :
    alwaysFails checkB
      ∧ (1 : Int) ≤ ((List.replicate 9223372036854775808 ()).length : Int)
      ∧ (runCalls (NewProbe { ReadinessCascade := 1, Checkers := [checkB] }) ()
          ((List.replicate 9223372036854775808 ()).map Call.readiness)).probe.failed
            = -9223372036854775808
      ∧ (runCalls (NewProbe { ReadinessCascade := 1, Checkers := [checkB] }) ()
          ((List.replicate 9223372036854775808 ()).map Call.readiness)).probe.CheckLiveness
            = true := by
  have hB : alwaysFails checkB := fun _ _ => by simp [checkB]
  have hf : (runCalls (NewProbe { ReadinessCascade := 1, Checkers := [checkB] }) ()
      ((List.replicate 9223372036854775808 ()).map Call.readiness)).probe.failed
        = -9223372036854775808 := by
    rw [failed_after_failing_rounds _ _ _ ⟨checkB, List.mem_singleton.mpr rfl, hB⟩
      wrapInt64_zero, List.length_replicate]
    decide
  refine ⟨hB, ?_, hf, ?_⟩
  · rw [List.length_replicate]
    decide
  · rw [CheckLiveness_eq, hf, runCalls_params]
    decide

/-- C5: for a threshold `N > 0` and any prior counter value, one
`CheckReadiness` call in which every check succeeds sets the counter to 0,
and `CheckLiveness` then returns true. -/
theorem C5_success_resets_counter (m : probe W Ctx) (ctx : Ctx) (w : W)
    (hN : 0 < m.ReadinessCascade)
    (hall : ∀ o ∈ outcomes ctx m.checkers w, o = none) :
    (m.CheckReadiness ctx w).probe.failed = 0
      ∧ (m.CheckReadiness ctx w).probe.CheckLiveness = true := by
  have hf : (m.CheckReadiness ctx w).probe.failed = 0 := by
    rw [CheckReadiness_failed, (all_isNone_iff _).mpr hall]
    rfl
  refine ⟨hf, ?_⟩
  rw [CheckLiveness_eq, hf, CheckReadiness_params]
  simp [hN]

/-- Witness of C5 with threshold 2 and the check `db`: after two failing
evaluations the counter is 2 and liveness is false; the third evaluation
succeeds, the counter is 0 and liveness is true again. -/
theorem C5_success_resets_counter_witness :
    (runCalls (NewProbe { ReadinessCascade := 2, Checkers := [checkDb] }) 0
        [Call.readiness (), Call.readiness ()]).probe.failed = 2
      ∧ (runCalls (NewProbe { ReadinessCascade := 2, Checkers := [checkDb] }) 0
        [Call.readiness (), Call.readiness ()]).probe.CheckLiveness = false
      ∧ (runCalls (NewProbe { ReadinessCascade := 2, Checkers := [checkDb] }) 0
        [Call.readiness (), Call.readiness ()]).world = 2
      ∧ (((runCalls (NewProbe { ReadinessCascade := 2, Checkers := [checkDb] }) 0
          [Call.readiness (), Call.readiness ()]).probe.CheckReadiness () 2).probe.failed = 0
        ∧ ((runCalls (NewProbe { ReadinessCascade := 2, Checkers := [checkDb] }) 0
          [Call.readiness (), Call.readiness ()]).probe.CheckReadiness () 2).probe.CheckLiveness
            = true) :=
  ⟨by decide, by decide, by decide,
    C5_success_resets_counter
      (runCalls (NewProbe { ReadinessCascade := 2, Checkers := [checkDb] }) 0
        [Call.readiness (), Call.readiness ()]).probe () 2 (by decide) (by decide)⟩

/-- C6 (amended): for a prior counter value `c` with `-2^63 <= c < 2^63 - 1`,
one `CheckReadiness` call in which at least one check fails leaves the counter
at `c + 1`, however many checks failed in that call. -/
theorem C6_failing_round_adds_one (m : probe W Ctx) (ctx : Ctx) (w : W)
    (hlo : -int64Bound ≤ m.failed) (hhi : m.failed < int64Bound - 1)
    (hfail : ∃ o ∈ outcomes ctx m.checkers w, o ≠ none) :
    (m.CheckReadiness ctx w).probe.failed = m.failed + 1 := by
  rw [CheckReadiness_failed, (all_isNone_eq_false_iff _).mpr hfail]
  simp only [Bool.false_eq_true, if_false]
  exact wrapInt64_of_range _ (by omega) (by omega)

/-- Witness of C6: two checks that both fail in the same call raise the
counter from 4 to 5, and so does the call with three checks of which two
fail. -/
theorem C6_failing_round_adds_one_witness :
    (({ ReadinessCascade := 5, checkers := [checkB, checkB], failed := 4 } :
        probe Unit Unit).CheckReadiness () ()).probe.failed = 4 + 1
      ∧ (({ ReadinessCascade := 5, checkers := [checkB, checkA, checkB], failed := 4 } :
        probe Unit Unit).CheckReadiness () ()).probe.failed = 4 + 1 :=
  ⟨C6_failing_round_adds_one
      ({ ReadinessCascade := 5, checkers := [checkB, checkB], failed := 4 } : probe Unit Unit)
      () () (by decide) (by decide) ⟨some "boom", by decide, by decide⟩,
    C6_failing_round_adds_one
      ({ ReadinessCascade := 5, checkers := [checkB, checkA, checkB], failed := 4 } :
        probe Unit Unit)
      () () (by decide) (by decide) ⟨some "boom", by decide, by decide⟩⟩

/-- C6 fails as stated: with the prior counter value `c = 2^63 - 1`, the
greatest `int64`, one call in which both checks fail leaves the counter at
`-2^63`, which is not `c + 1`. -/
theorem C6_counterexample_max_int64 :
    (∃ o ∈ outcomes ()
        ({ ReadinessCascade := 5, checkers := [checkB, checkB],
           failed := 9223372036854775807 } : probe Unit Unit).checkers (), o ≠ none)
      ∧ (({ ReadinessCascade := 5, checkers := [checkB, checkB],
            failed := 9223372036854775807 } : probe Unit Unit).CheckReadiness () ()).probe.failed
          = -9223372036854775808
      ∧ (({ ReadinessCascade := 5, checkers := [checkB, checkB],
            failed := 9223372036854775807 } : probe Unit Unit).CheckReadiness () ()).probe.failed
          ≠ 9223372036854775807 + 1 :=
  ⟨⟨some "boom", by decide, by decide⟩, by decide, by decide⟩

theorem liveness_all_true_of_disabled (m : probe W Ctx) (w : W) (calls : List (Call Ctx))
    (h : m.ReadinessCascade ≤ 0) :
    (livenessReplies (runCalls m w calls).replies).all (fun alive => alive) = true := by
  induction calls generalizing m w with
  | nil => rfl
  | cons c rest ih =>
    cases c with
    | liveness =>
      rw [runCalls_liveness_cons]
      simp only [livenessReplies, List.all_cons, Bool.and_eq_true]
      exact ⟨by simp [CheckLiveness_eq, h], ih m w h⟩
    | readiness ctx =>
      simp only [runCalls, livenessReplies]
      exact ih _ _ (by rw [CheckReadiness_params]; exact h)

/-- C7: with a threshold `<= 0`, every `CheckLiveness` call in every finite
sequence of calls on a fresh probe returns true. -/
theorem C7_disabled_cascade_always_alive (opts : ProbeOptions W Ctx) (w : W)
    (calls : List (Call Ctx)) (h : opts.ReadinessCascade ≤ 0) :
    (livenessReplies (runCalls (NewProbe opts) w calls).replies).all (fun alive => alive)
      = true :=
  liveness_all_true_of_disabled (NewProbe opts) w calls h

/-- Witness of C7 with threshold 0 and the always-failing check `B`: liveness
is true before any evaluation and after three consecutive failing ones. -/
theorem C7_disabled_cascade_always_alive_witness :
    (0 : Int) ≤ 0
      ∧ (runCalls (NewProbe { ReadinessCascade := 0, Checkers := [checkB] }) ()
        [Call.liveness, Call.readiness (), Call.readiness (), Call.readiness (),
          Call.liveness]).replies
        = [Reply.liveness true, Reply.readiness "B: boom" false, Reply.readiness "B: boom" false,
            Reply.readiness "B: boom" false, Reply.liveness true]
      ∧ (runCalls (NewProbe { ReadinessCascade := 0, Checkers := [checkB] }) ()
        [Call.liveness, Call.readiness (), Call.readiness (), Call.readiness (),
          Call.liveness]).probe.failed = 3
      ∧ (livenessReplies (runCalls (NewProbe { ReadinessCascade := 0, Checkers := [checkB] }) ()
        [Call.liveness, Call.readiness (), Call.readiness (), Call.readiness (),
          Call.liveness]).replies).all (fun alive => alive) = true :=
  ⟨by decide, by decide, by decide,
    C7_disabled_cascade_always_alive { ReadinessCascade := 0, Checkers := [checkB] } ()
      [Call.liveness, Call.readiness (), Call.readiness (), Call.readiness (), Call.liveness]
      (by decide)⟩

/-! ## Every check runs once, in order -/

theorem checkLoop_tracedFrom (ctx : Ctx) (cs : List (Named (CheckerFunc W Ctx))) (i : Nat)
    (results : List String) (ready : Bool) (w : W) (log : List (Nat × Ctx)) :
    checkLoop ctx (tracedFrom i cs) results ready (w, log) =
      ((checkLoop ctx cs results ready w).1, (checkLoop ctx cs results ready w).2.1,
        ((checkLoop ctx cs results ready w).2.2,
          log ++ (List.range' i cs.length).map (fun j => (j, ctx)))) := by
  induction cs generalizing i results ready w log with
  | nil => simp [tracedFrom, checkLoop]
  | cons c cs ih =>
    simp only [tracedFrom, checkLoop, traced, List.length_cons, List.range'_succ, List.map_cons]
    cases h : (c.Value ctx w).1 with
    | none => simp [ih]
    | some e => simp [ih]

/-- C8: one `CheckReadiness` call invokes every registered check exactly once,
in registry order, each with the context of the caller, whatever the outcomes:
the log written by the instrumented checks is position 0, 1, ..., n-1, each
with `ctx`; the instrumentation changes neither the results nor the world, and
the world after the call is the one in which each check has run in turn. -/
theorem C8_every_check_invoked_once_in_order (m : probe W Ctx) (ctx : Ctx) (w : W) :
    (m.traced.CheckReadiness ctx (w, [])).world.2
        = (List.range m.checkers.length).map (fun i => (i, ctx))
      ∧ (m.traced.CheckReadiness ctx (w, [])).world.1 = (m.CheckReadiness ctx w).world
      ∧ (m.traced.CheckReadiness ctx (w, [])).result = (m.CheckReadiness ctx w).result
      ∧ (m.traced.CheckReadiness ctx (w, [])).ready = (m.CheckReadiness ctx w).ready
      ∧ (m.traced.CheckReadiness ctx (w, [])).probe.failed = (m.CheckReadiness ctx w).probe.failed
      ∧ (m.CheckReadiness ctx w).world
          = m.checkers.foldl (fun v c => (c.Value ctx v).2) w
      ∧ (outcomes ctx m.checkers w).length = m.checkers.length := by
  refine ⟨?_, ?_, ?_, ?_, ?_, CheckReadiness_world m ctx w, outcomes_length ctx m.checkers w⟩ <;>
    simp [probe.CheckReadiness, probe.traced, checkLoop_tracedFrom, List.range_eq_range']

/-! ## The report as lines -/

theorem splitChars_of_not_mem (sep : Char) (l : List Char) (h : sep ∉ l) :
    splitChars sep l = [l] := by
  induction l with
  | nil => rfl
  | cons c cs ih =>
    have hc : c ≠ sep := fun e => h (e ▸ List.mem_cons_self c cs)
    have hcs : sep ∉ cs := fun e => h (List.mem_cons_of_mem c e)
    simp [splitChars, hc, ih hcs]

theorem splitChars_append_sep (sep : Char) (l rest : List Char) (h : sep ∉ l) :
    splitChars sep (l ++ sep :: rest) = l :: splitChars sep rest := by
  induction l with
  | nil => simp [splitChars]
  | cons c cs ih =>
    have hc : c ≠ sep := fun e => h (e ▸ List.mem_cons_self c cs)
    have hcs : sep ∉ cs := fun e => h (List.mem_cons_of_mem c e)
    simp [splitChars, hc, ih hcs]

/-- Splitting a joined, non-empty list of newline-free lines gives the lines back. -/
theorem splitLines_stringsJoin (lines : List String) (hne : lines ≠ [])
    (h : ∀ l ∈ lines, Char.ofNat 10 ∉ l.data) :
    splitLines (stringsJoin lines "\n") = lines := by
  induction lines with
  | nil => exact absurd rfl hne
  | cons x rest ih =>
    cases rest with
    | nil =>
      simp [stringsJoin, splitLines, splitChars_of_not_mem _ _ (h x (List.mem_cons_self _ _))]
    | cons y rest =>
      have ih2 := ih (List.cons_ne_nil y rest) (fun l hl => h l (List.mem_cons_of_mem x hl))
      have hx := h x (List.mem_cons_self _ _)
      have hd : (stringsJoin (x :: y :: rest) "\n").data
          = x.data ++ Char.ofNat 10 :: (stringsJoin (y :: rest) "\n").data := by
        simp [stringsJoin, String.data_append]
      unfold splitLines at ih2 ⊢
      rw [hd, splitChars_append_sep _ _ _ hx, List.map_cons, ih2]

theorem reportLine_no_newline (name : String) (o : GoError)
    (hname : Char.ofNat 10 ∉ name.data)
    (hmsg : ∀ msg, o = some msg → Char.ofNat 10 ∉ msg.data) :
    Char.ofNat 10 ∉ (reportLine name o).data := by
  have hOK : Char.ofNat 10 ∉ ": OK".data := by decide
  have hsep : Char.ofNat 10 ∉ ": ".data := by decide
  cases o with
  | none =>
    simp only [reportLine, String.data_append, List.mem_append, not_or]
    exact ⟨hname, hOK⟩
  | some msg =>
    simp only [reportLine, String.data_append, List.mem_append, not_or]
    exact ⟨⟨hname, hsep⟩, hmsg msg rfl⟩

theorem reportLines_no_newline (ctx : Ctx) (cs : List (Named (CheckerFunc W Ctx))) (w : W)
    (hnames : ∀ c ∈ cs, Char.ofNat 10 ∉ c.Name.data)
    (hmsgs : ∀ msg, some msg ∈ outcomes ctx cs w → Char.ofNat 10 ∉ msg.data) :
    ∀ l ∈ reportLines ctx cs w, Char.ofNat 10 ∉ l.data := by
  induction cs generalizing w with
  | nil => simp [reportLines_nil]
  | cons c cs ih =>
    intro l hl
    rw [reportLines_cons, List.mem_cons] at hl
    rcases hl with rfl | hl
    · exact reportLine_no_newline _ _ (hnames c (List.mem_cons_self _ _))
        (fun msg e => hmsgs msg (by simp [outcomes, e]))
    · exact ih _ (fun d hd => hnames d (List.mem_cons_of_mem c hd))
        (fun msg hm => hmsgs msg (by simp [outcomes, hm])) l hl

/-- C9 (amended): for a non-empty registry in which no check name and no
failure message of the evaluation contains a newline, splitting the report on
the newline character yields exactly one line per check, in registry order:
line `i` is `<name>: OK` or `<name>: <message>` of check `i`. -/
theorem C9_report_splits_into_lines (m : probe W Ctx) (ctx : Ctx) (w : W)
    (hne : m.checkers ≠ [])
    (hnames : ∀ c ∈ m.checkers, Char.ofNat 10 ∉ c.Name.data)
    (hmsgs : ∀ msg, some msg ∈ outcomes ctx m.checkers w → Char.ofNat 10 ∉ msg.data) :
    splitLines (m.CheckReadiness ctx w).result
        = List.zipWith reportLine (m.checkers.map Named.Name) (outcomes ctx m.checkers w)
      ∧ (splitLines (m.CheckReadiness ctx w).result).length = m.checkers.length := by
  have hs : splitLines (m.CheckReadiness ctx w).result = reportLines ctx m.checkers w := by
    rw [CheckReadiness_result]
    refine splitLines_stringsJoin _ ?_ (reportLines_no_newline ctx m.checkers w hnames hmsgs)
    intro h
    have hl := reportLines_length ctx m.checkers w
    rw [h] at hl
    exact hne (List.length_eq_zero.mp hl.symm)
  exact ⟨hs, by rw [hs, reportLines_length]⟩

/-- Witness of C9 with the checks `A` (succeeds) and `B` (fails with `boom`):
the report splits into the two lines `A: OK` and `B: boom`. -/
theorem C9_report_splits_into_lines_witness :
    splitLines ((NewProbe optionsAB).CheckReadiness () ()).result = ["A: OK", "B: boom"]
      ∧ (splitLines ((NewProbe optionsAB).CheckReadiness () ()).result).length = 2 :=
  C9_report_splits_into_lines (NewProbe optionsAB) () () (List.cons_ne_nil _ _)
    (by
      intro c hc
      rcases List.mem_cons.mp hc with rfl | hc
      · decide
      · rcases List.mem_cons.mp hc with rfl | hc
        · decide
        · cases hc)
    (by
      intro msg hm
      have ho : outcomes () (NewProbe optionsAB).checkers () = [none, some "boom"] := rfl
      rw [ho] at hm
      simp only [List.mem_cons, List.mem_singleton, Option.some.injEq, List.not_mem_nil,
        or_false, reduceCtorEq, false_or] at hm
      subst hm
      decide)

/-- C9 fails as stated: with the two checks `A` and `M`, where `M` fails with
a message of two lines, the report splits into three lines; and for the empty
registry the report is the empty text, which splits into one (empty) line
although there is no check. -/
theorem C9_counterexample_line_count :
    ((NewProbe optionsMultiline).CheckReadiness () ()).result = "A: OK\nM: first\nsecond"
      ∧ splitLines ((NewProbe optionsMultiline).CheckReadiness () ()).result
          = ["A: OK", "M: first", "second"]
      ∧ (splitLines ((NewProbe optionsMultiline).CheckReadiness () ()).result).length
          ≠ (NewProbe optionsMultiline).checkers.length
      ∧ splitLines ((NewProbe optionsEmpty).CheckReadiness () ()).result = [""]
      ∧ (splitLines ((NewProbe optionsEmpty).CheckReadiness () ()).result).length
          ≠ (NewProbe optionsEmpty).checkers.length :=
  ⟨by decide, by decide, by decide, by decide, by decide⟩

/-! ## Liveness queries leave the probe alone -/

theorem runCalls_append (m : probe W Ctx) (w : W) (a b : List (Call Ctx)) :
    runCalls m w (a ++ b) =
      { replies := (runCalls m w a).replies
          ++ (runCalls (runCalls m w a).probe (runCalls m w a).world b).replies
        probe := (runCalls (runCalls m w a).probe (runCalls m w a).world b).probe
        world := (runCalls (runCalls m w a).probe (runCalls m w a).world b).world } := by
  induction a generalizing m w with
  | nil => simp [runCalls]
  | cons c rest ih =>
    cases c with
    | liveness => simp [runCalls_liveness_cons, ih]
    | readiness ctx => simp [runCalls, ih]

theorem runCalls_replicate_liveness (m : probe W Ctx) (w : W) (n : Nat) :
    runCalls m w (List.replicate n Call.liveness) =
      { replies := List.replicate n (Reply.liveness m.CheckLiveness), probe := m, world := w } := by
  induction n with
  | zero => rfl
  | succ n ih => simp [List.replicate_succ, runCalls_liveness_cons, ih]

theorem runCalls_replies_length (m : probe W Ctx) (w : W) (calls : List (Call Ctx)) :
    (runCalls m w calls).replies.length = calls.length := by
  induction calls generalizing m w with
  | nil => rfl
  | cons c rest ih =>
    cases c with
    | liveness => simp [runCalls_liveness_cons, ih]
    | readiness ctx => simp [runCalls, ih]

/-- C10: `CheckLiveness` is a pure read.  One call leaves the receiver
(counter, threshold, registry) and the world of the checks as they were, so no
check ran: the log of the instrumented checks is unchanged, and the returned
value is the same for any registry and world with the same counter and
threshold.  Hence `n` liveness calls inserted anywhere in a sequence of calls
leave the final probe and world as they are without them, and the replies are
the replies of the original sequence with the `n` liveness replies spliced in
at the insertion point. -/
theorem C10_liveness_is_pure_read (m : probe W Ctx) (w : W) (pre post : List (Call Ctx))
    (n : Nat) :
    (m.CheckLivenessCall w).probe = m
      ∧ (m.CheckLivenessCall w).world = w
      ∧ (∀ log : List (Nat × Ctx), (m.traced.CheckLivenessCall (w, log)).world.2 = log)
      ∧ (∀ (V : Type) (m' : probe V Ctx) (v : V), m'.failed = m.failed →
          m'.ReadinessCascade = m.ReadinessCascade →
          (m'.CheckLivenessCall v).alive = (m.CheckLivenessCall w).alive)
      ∧ (runCalls m w (pre ++ List.replicate n Call.liveness ++ post)).probe
          = (runCalls m w (pre ++ post)).probe
      ∧ (runCalls m w (pre ++ List.replicate n Call.liveness ++ post)).world
          = (runCalls m w (pre ++ post)).world
      ∧ (runCalls m w (pre ++ List.replicate n Call.liveness ++ post)).replies
          = (runCalls m w (pre ++ post)).replies.take pre.length
            ++ List.replicate n (Reply.liveness
                ((runCalls m w pre).probe.CheckLivenessCall (runCalls m w pre).world).alive)
            ++ (runCalls m w (pre ++ post)).replies.drop pre.length := by
  refine ⟨CheckLivenessCall_probe m w, CheckLivenessCall_world m w, ?_, ?_, ?_, ?_, ?_⟩
  · intro log
    rw [CheckLivenessCall_world]
  · intro V m' v hf hN
    rw [CheckLivenessCall_alive, CheckLivenessCall_alive, CheckLiveness_eq, CheckLiveness_eq,
      hf, hN]
  · simp [runCalls_append, runCalls_replicate_liveness]
  · simp [runCalls_append, runCalls_replicate_liveness]
  · have hl := runCalls_replies_length m w pre
    simp [runCalls_append, runCalls_replicate_liveness, List.take_append_eq_append_take,
      List.drop_append_eq_append_drop, hl, CheckLivenessCall_alive]

/-! ## The counter in reachable states -/

theorem readinessCount_take_le (calls : List (Call Ctx)) (n : Nat) :
    readinessCount (calls.take n) ≤ readinessCount calls := by
  induction calls generalizing n with
  | nil => simp [readinessCount]
  | cons c rest ih =>
    cases n with
    | zero => simp [readinessCount]
    | succ n =>
      cases c with
      | readiness ctx =>
        simp only [List.take_succ_cons, readinessCount]
        exact Nat.succ_le_succ (ih n)
      | liveness =>
        simp only [List.take_succ_cons, readinessCount]
        exact ih n

/-- While the counter cannot overflow, it stays between 0 and its prior value
plus the number of readiness evaluations. -/
theorem failed_bounds (m : probe W Ctx) (w : W) (calls : List (Call Ctx))
    (h0 : 0 ≤ m.failed) (hb : m.failed + (readinessCount calls : Int) < int64Bound) :
    0 ≤ (runCalls m w calls).probe.failed
      ∧ (runCalls m w calls).probe.failed ≤ m.failed + (readinessCount calls : Int) := by
  induction calls generalizing m w with
  | nil => simpa [runCalls, readinessCount] using h0
  | cons c rest ih =>
    cases c with
    | liveness =>
      simp only [readinessCount] at hb
      simpa [runCalls_liveness_cons, readinessCount] using ih m w h0 hb
    | readiness ctx =>
      simp only [readinessCount, Nat.cast_add, Nat.cast_one] at hb ⊢
      have hn : (0 : Int) ≤ (readinessCount rest : Int) := Int.ofNat_nonneg _
      have hf : 0 ≤ (m.CheckReadiness ctx w).probe.failed
          ∧ (m.CheckReadiness ctx w).probe.failed ≤ m.failed + 1 := by
        rw [CheckReadiness_failed]
        split
        · omega
        · rw [wrapInt64_of_range _ (by unfold int64Bound at *; omega) (by omega)]
          omega
      have ih2 := ih (m.CheckReadiness ctx w).probe (m.CheckReadiness ctx w).world hf.1
        (by omega)
      simp only [runCalls]
      omega

/-- C11 (amended): on a freshly constructed probe, for every threshold, every
registry and every finite sequence of calls with fewer than `2^63`
`CheckReadiness` calls, the counter is `>= 0` after each call (after the
first `n` calls, for every `n`). -/
theorem C11_counter_nonneg (opts : ProbeOptions W Ctx) (w : W) (calls : List (Call Ctx))
    (n : Nat) (h : (readinessCount calls : Int) < int64Bound) :
    0 ≤ (runCalls (NewProbe opts) w (calls.take n)).probe.failed := by
  have hle : (readinessCount (calls.take n) : Int) ≤ (readinessCount calls : Int) :=
    Int.ofNat_le.mpr (readinessCount_take_le calls n)
  have h0 : (NewProbe opts).failed = 0 := rfl
  exact (failed_bounds (NewProbe opts) w (calls.take n) (by rw [h0])
    (by rw [h0]; omega)).1

/-- Witness of C11 with the always-failing check `B`: after two failing
evaluations and one liveness query the counter is 2. -/
theorem C11_counter_nonneg_witness :
    (readinessCount [Call.readiness (), Call.liveness, Call.readiness ()] : Int) < int64Bound
      ∧ (runCalls (NewProbe optionsB) ()
          ([Call.readiness (), Call.liveness, Call.readiness ()].take 3)).probe.failed = 2
      ∧ 0 ≤ (runCalls (NewProbe optionsB) ()
          ([Call.readiness (), Call.liveness, Call.readiness ()].take 3)).probe.failed :=
  ⟨by decide, by decide,
    C11_counter_nonneg optionsB () [Call.readiness (), Call.liveness, Call.readiness ()] 3
      (by decide)⟩

/-- C11 fails as stated: on a fresh probe with the always-failing check `B`,
after `2^63` consecutive `CheckReadiness` calls the `int64` counter is
`-2^63`, which is negative. -/
theorem C11_counterexample_negative_counter :
    (runCalls (NewProbe optionsB) ()
        ((List.replicate 9223372036854775808 ()).map Call.readiness)).probe.failed
          = -9223372036854775808
      ∧ ¬ 0 ≤ (runCalls (NewProbe optionsB) ()
        ((List.replicate 9223372036854775808 ()).map Call.readiness)).probe.failed := by
  have hB : ∃ c ∈ (NewProbe optionsB).checkers, alwaysFails c :=
    ⟨checkB, List.mem_singleton.mpr rfl, fun _ _ => by simp [checkB]⟩
  have hf : (runCalls (NewProbe optionsB) ()
      ((List.replicate 9223372036854775808 ()).map Call.readiness)).probe.failed
        = -9223372036854775808 := by
    rw [failed_after_failing_rounds _ _ _ hB wrapInt64_zero, List.length_replicate]
    decide
  refine ⟨hf, ?_⟩
  rw [hf]
  decide

/-! ## Construction -/

/-- C12: a probe built by `NewProbe` has the counter at 0 and holds exactly
the supplied threshold and the supplied checks in the supplied order, and
`CheckLiveness` returns true on it for every threshold value. -/
theorem C12_fresh_probe (opts : ProbeOptions W Ctx) :
    (NewProbe opts).failed = 0
      ∧ (NewProbe opts).ReadinessCascade = opts.ReadinessCascade
      ∧ (NewProbe opts).checkers = opts.Checkers
      ∧ (NewProbe opts).CheckLiveness = true := by
  refine ⟨rfl, rfl, rfl, ?_⟩
  rw [CheckLiveness_eq]
  show (decide (opts.ReadinessCascade ≤ 0) || decide ((0 : Int) < opts.ReadinessCascade)) = true
  rcases le_or_lt opts.ReadinessCascade 0 with h | h
  · simp [h]
  · simp [h]

/-! ## The returned flag -/

/-- C13: the interface `Probe` names the boolean result of `CheckReadiness`
`failed`, but the method returns `ready`: with the single succeeding check `A`
no check fails and the boolean is true; with the single failing check `B` a
check fails and the boolean is false.  In general the boolean is true exactly
when no check failed. -/
theorem C13_returned_flag_is_ready :
    outcomes () (NewProbe optionsA).checkers () = [none]
      ∧ ((NewProbe optionsA).CheckReadiness () ()).ready = true
      ∧ outcomes () (NewProbe optionsB).checkers () = [some "boom"]
      ∧ ((NewProbe optionsB).CheckReadiness () ()).ready = false
      ∧ (∀ (V C : Type) (m : probe V C) (ctx : C) (v : V),
          (m.CheckReadiness ctx v).ready = !(outcomes ctx m.checkers v).any Option.isSome) := by
  refine ⟨rfl, by decide, rfl, by decide, ?_⟩
  intro V C m ctx v
  rw [CheckReadiness_ready]
  induction outcomes ctx m.checkers v with
  | nil => rfl
  | cons o os ih => cases o <;> simp [ih]

/-! ## The empty registry -/

/-- C15: for a probe with an empty registry, whatever the context, the
threshold and the prior counter value, `CheckReadiness` returns the empty
report and `ready = true`, invokes nothing, and sets the counter to 0, so
that the next `CheckLiveness` returns true. -/
theorem C15_empty_registry (m : probe W Ctx) (ctx : Ctx) (w : W) (h : m.checkers = []) :
    (m.CheckReadiness ctx w).result = ""
      ∧ (m.CheckReadiness ctx w).ready = true
      ∧ (m.CheckReadiness ctx w).world = w
      ∧ (m.CheckReadiness ctx w).probe.failed = 0
      ∧ (m.CheckReadiness ctx w).probe.CheckLiveness = true := by
  have hf : (m.CheckReadiness ctx w).probe.failed = 0 := by
    rw [CheckReadiness_failed, h]
    rfl
  refine ⟨?_, ?_, ?_, hf, ?_⟩
  · rw [CheckReadiness_result, h]
    rfl
  · rw [CheckReadiness_ready, h]
    rfl
  · rw [CheckReadiness_world, h]
    rfl
  · rw [CheckLiveness_eq, hf]
    rcases le_or_lt (m.CheckReadiness ctx w).probe.ReadinessCascade 0 with hN | hN
    · simp [hN]
    · simp [hN]

/-- Witness of C15 with threshold 5 and the counter at 9: liveness is false
before the evaluation; the evaluation reports the empty text and ready, the
counter is 0 and liveness is true. -/
theorem C15_empty_registry_witness :
    probeDegradedEmpty.checkers = []
      ∧ probeDegradedEmpty.CheckLiveness = false
      ∧ ((probeDegradedEmpty.CheckReadiness () ()).result = ""
        ∧ (probeDegradedEmpty.CheckReadiness () ()).ready = true
        ∧ (probeDegradedEmpty.CheckReadiness () ()).world = ()
        ∧ (probeDegradedEmpty.CheckReadiness () ()).probe.failed = 0
        ∧ (probeDegradedEmpty.CheckReadiness () ()).probe.CheckLiveness = true) :=
  ⟨rfl, by decide, C15_empty_registry probeDegradedEmpty () () rfl⟩

/-! ## Readiness does not depend on the cascade state -/

/-- C16: two probes with the same registry whose checks produce the same
outcomes return the same report and the same `ready`, whatever their counters
and thresholds are. -/
theorem C16_readiness_independent_of_cascade (m₁ m₂ : probe W Ctx) (ctx₁ ctx₂ : Ctx)
    (w₁ w₂ : W) (hreg : m₁.checkers = m₂.checkers)
    (hout : outcomes ctx₁ m₁.checkers w₁ = outcomes ctx₂ m₂.checkers w₂) :
    (m₁.CheckReadiness ctx₁ w₁).result = (m₂.CheckReadiness ctx₂ w₂).result
      ∧ (m₁.CheckReadiness ctx₁ w₁).ready = (m₂.CheckReadiness ctx₂ w₂).ready := by
  constructor
  · rw [CheckReadiness_result, CheckReadiness_result]
    unfold reportLines
    rw [hout, hreg]
  · rw [CheckReadiness_ready, CheckReadiness_ready, hout]

/-- Witness of C16: the probe with registry `A`, `B`, threshold 2 and counter 7,
whose liveness is false, reports readiness exactly as the fresh probe with
the same registry and threshold 5 does. -/
theorem C16_readiness_independent_of_cascade_witness :
    probeDegradedAB.checkers = (NewProbe optionsAB).checkers
      ∧ probeDegradedAB.CheckLiveness = false
      ∧ (NewProbe optionsAB).CheckLiveness = true
      ∧ (probeDegradedAB.CheckReadiness () ()).result = "A: OK\nB: boom"
      ∧ ((probeDegradedAB.CheckReadiness () ()).result
            = ((NewProbe optionsAB).CheckReadiness () ()).result
        ∧ (probeDegradedAB.CheckReadiness () ()).ready
            = ((NewProbe optionsAB).CheckReadiness () ()).ready) :=
  ⟨rfl, by decide, by decide, by decide,
    C16_readiness_independent_of_cascade probeDegradedAB (NewProbe optionsAB) () () () ()
      rfl rfl⟩

end ufx
